import Mathlib

/-!
Verification of the bounded-cost web research pipeline
(`agents/researcher.py`, `tools/web_search.py`, `tools/fetch_page.py`).

The Python source is shallowly embedded: pure helpers become Lean
functions over `String` / `List Char`; network and LLM effects become
explicit oracles (`Nat → NetOutcome`, `String → Except LLMError String`);
code paths that can raise a Python exception return `Except Unit _`
with `.error ()` standing for "an exception propagates to the caller";
the process-wide search cache becomes explicit state threaded through
`searchModel`.  Machine integers do not overflow in any modelled path,
so `Nat` is used throughout.
-/

namespace Research

/-! ## Python string primitives

Python `str.strip`, `str.lower`, `str.find`, `str.split(sep, 1)` and
slicing, modelled over `List Char`.  Lowercasing is modelled
character-wise (exact for ASCII, which is all the code's separators
use); stripping removes the ASCII whitespace characters Python strips.
-/

/-- Characters removed by Python `str.strip()` (ASCII subset). -/
def isPyWs (c : Char) : Bool :=
  c = ' ' || c = '\t' || c = '\n' || c = '\x0d' || c = '\x0b' || c = '\x0c'

/-- Python `str.strip()` on a character list. -/
def pyStrip (l : List Char) : List Char :=
  ((l.dropWhile isPyWs).reverse.dropWhile isPyWs).reverse

/-- Python `str.lower()` on a character list (ASCII case mapping). -/
def pyLower (l : List Char) : List Char :=
  l.map Char.toLower

/-- Index of the first occurrence of `needle` in `hay` (Python `str.find`,
returning `none` instead of `-1`). -/
def findSub (needle : List Char) : List Char → Option Nat
  | [] => if needle = [] then some 0 else none
  | c :: rest =>
      if needle.isPrefixOf (c :: rest) then some 0
      else (findSub needle rest).map (· + 1)

/-- Python `str.split(sep, 1)`: `none` when `sep` does not occur, otherwise
the text before and after the first occurrence. -/
def pySplitOnce (l sep : List Char) : Option (List Char × List Char) :=
  match findSub sep l with
  | none => none
  | some idx => some (l.take idx, l.drop (idx + sep.length))

/-- Python `str.strip()` on a `String`. -/
def pyStripStr (s : String) : String :=
  String.mk (pyStrip s.toList)

/-- Python `str.lower()` on a `String`. -/
def pyLowerStr (s : String) : String :=
  String.mk (pyLower s.toList)

/-- Python `a or b` for strings: `a` if non-empty, else `b`. -/
def pyOr (a b : String) : String :=
  if a = "" then b else a

/-- Python `s.startswith(p)` (codepoint-wise prefix test). -/
def pyStartsWith (s p : String) : Bool :=
  p.toList.isPrefixOf s.toList

/-! ## Query decomposition (`researcher._decompose`)

Embeds `_decompose` from `src/agents/researcher.py`.  The Python body
can raise `IndexError`: the `" and "` branch tests membership on the
*lowercased* query but splits the *original-case* query with
`q.split(" and ", 1)`; when the separator occurs only in a different
case, `parts` has a single element and `parts[1]` raises (reached
whenever `len(parts[0].strip()) > 10`, which holds because
`len(q) > 40`).  The embedding returns `Except.error ()` there.
-/

/-- One iteration of the `for sep in (" vs ", " versus ")` loop body:
split `q` at the first occurrence of `sep` in the lowercased query and
return the stripped sides when both are non-empty. -/
def vsSplit (q ql sep : List Char) : Option (List Char × List Char) :=
  match findSub sep ql with
  | none => none
  | some idx =>
      let left := pyStrip (q.take idx)
      let right := pyStrip (q.drop (idx + sep.length))
      if left ≠ [] ∧ right ≠ [] then some (left, right) else none

/-- Core of `_decompose` over character lists. -/
def decomposeCore (query : List Char) : Except Unit (List (List Char)) :=
  let q := pyStrip query
  let ql := pyLower q
  match vsSplit q ql " vs ".toList with
  | some (l, r) => .ok [l, r]
  | none =>
    match vsSplit q ql " versus ".toList with
    | some (l, r) => .ok [l, r]
    | none =>
      if (findSub " and ".toList ql).isSome ∧ 40 < q.length then
        match pySplitOnce q " and ".toList with
        | none =>
            -- parts == [q]; Python evaluates parts[1] iff
            -- len(parts[0].strip()) > 10 and then raises IndexError
            if 10 < (pyStrip q).length then .error () else .ok [q]
        | some (a, b) =>
            if 10 < (pyStrip a).length then
              if 10 < (pyStrip b).length then .ok [q, pyStrip a, pyStrip b]
              else .ok [q]
            else .ok [q]
      else .ok [q]

/-- `researcher._decompose(query)`.  `Except.error ()` models the
`IndexError` described above. -/
def _decompose (query : String) : Except Unit (List String) :=
  (decomposeCore query.toList).map (List.map String.mk)

/-! ## Search client (`tools/web_search.py`)

`_search_sync` is embedded over a network oracle `net : Nat → NetOutcome`
giving the outcome of the `urllib.request.urlopen` call on each 1-based
attempt.  A successful HTTP response is summarised by the parsed result
list the DDG parser yields from the decoded body, plus two flags for the
`Content-Encoding: gzip` header and for whether the body is valid gzip
when that header is present: `gzip.decompress` raises `BadGzipFile`
(an `OSError` that is neither `HTTPError` nor `URLError`, hence not
caught) on an invalid body, which the embedding renders as
`Except.error ()`.
-/

/-- A single search result (`web_search.SearchResult`). -/
structure SearchResult where
  url : String
  title : String
  snippet : String
deriving DecidableEq

/-- Outcome of one `urlopen` attempt inside `_search_sync`. -/
inductive NetOutcome where
  /-- HTTP 200: `declaredGzip` is whether `Content-Encoding: gzip` was
  sent, `gzipValid` whether the body decompresses, `parsed` the results
  the `_DDGParser` produced from the decoded body. -/
  | success (declaredGzip gzipValid : Bool) (parsed : List SearchResult)
  /-- `urllib.error.HTTPError` with the given status code. -/
  | httpError (code : Nat)
  /-- `urllib.error.URLError` (connection / timeout). -/
  | netError
deriving DecidableEq

/-- `web_search._MAX_RETRIES`. -/
def _MAX_RETRIES : Nat := 3

/-- `web_search._BASE_DELAY * (2 ** (attempt - 1))` in seconds
(`_BASE_DELAY` is `1.0`, so the value is integral). -/
def backoffDelay (attempt : Nat) : Nat := 1 * 2 ^ (attempt - 1)

/-- Post-processing of the parser output in `_search_sync`
(lines 198-200): truncate to `max_results` **first**, then drop results
whose URL does not start with `"http"`. -/
def postProcess (parsed : List SearchResult) (maxResults : Nat) : List SearchResult :=
  (parsed.take maxResults).filter (fun r => pyStartsWith r.url "http")

instance exceptDecEq {ε α : Type} [DecidableEq ε] [DecidableEq α] :
    DecidableEq (Except ε α) := fun a b =>
  match a, b with
  | .error e, .error f =>
      if h : e = f then isTrue (by rw [h])
      else isFalse (by intro hh; cases hh; exact h rfl)
  | .ok x, .ok y =>
      if h : x = y then isTrue (by rw [h])
      else isFalse (by intro hh; cases hh; exact h rfl)
  | .error _, .ok _ => isFalse (by intro hh; cases hh)
  | .ok _, .error _ => isFalse (by intro hh; cases hh)

/-- Observable outcome of `_search_sync`: the returned value (or a raised
exception), and the `time.sleep` backoff delays performed between
attempts, in order. -/
structure SyncResult where
  result : Except Unit (List SearchResult)
  sleeps : List Nat
deriving DecidableEq

/-- The `for attempt in range(1, _MAX_RETRIES + 1)` loop of
`_search_sync`, with `fuel` attempts remaining (`fuel = _MAX_RETRIES -
attempt + 1` at every reachable call). -/
def searchSyncFrom (net : Nat → NetOutcome) (maxResults : Nat) :
    (attempt fuel : Nat) → SyncResult
  | _, 0 => ⟨.ok [], []⟩
  | attempt, fuel + 1 =>
    let retry : SyncResult :=
      if fuel = 0 then ⟨.ok [], []⟩
      else
        let rest := searchSyncFrom net maxResults (attempt + 1) fuel
        ⟨rest.result, backoffDelay attempt :: rest.sleeps⟩
    match net attempt with
    | .success g gv parsed =>
        if g && !gv then ⟨.error (), []⟩
        else ⟨.ok (postProcess parsed maxResults), []⟩
    | .httpError code => if code < 500 then ⟨.ok [], []⟩ else retry
    | .netError => retry

/-- `web_search._search_sync(query, max_results)` under network oracle
`net`. -/
def searchSync (net : Nat → NetOutcome) (maxResults : Nat) : SyncResult :=
  searchSyncFrom net maxResults 1 _MAX_RETRIES

/-- A retryable attempt outcome: `URLError` or HTTP 5xx. -/
def Retryable (o : NetOutcome) : Prop :=
  o = .netError ∨ ∃ c, o = .httpError c ∧ 500 ≤ c

/-- Reference predicate, from the spec's words: an *absolute HTTP(S)
URL*, i.e. one with an `http` or `https` scheme and an authority. -/
def specAbsHttp (u : String) : Bool :=
  pyStartsWith u "http://" || pyStartsWith u "https://"

/-! ## Search cache (`web_search.search`, `_CacheEntry`)

The process-wide dict `_cache` becomes an explicit association list with
at most one entry per key; `time.monotonic()` becomes an explicit `now`
argument.  The MD5 hash of the normalised query is modelled by the
normalised query itself (equal normalised queries give equal keys).
-/

/-- `web_search._MAX_CACHE_SIZE`. -/
def _MAX_CACHE_SIZE : Nat := 256

/-- `web_search._CacheEntry`: results plus absolute expiry instant
(`time.monotonic() + ttl` at construction). -/
structure CacheEntry where
  results : List SearchResult
  expires : Nat
deriving DecidableEq

/-- `_CacheEntry.is_fresh`: `time.monotonic() < self._expires`. -/
def CacheEntry.isFresh (e : CacheEntry) (now : Nat) : Bool :=
  now < e.expires

/-- The process-wide `_cache` dict, as a key-unique association list. -/
abbrev Cache := List (String × CacheEntry)

/-- `web_search._cache_key`: MD5 of `query.lower().strip()`, modelled by
the normalised string itself. -/
def cacheKey (query : String) : String :=
  pyLowerStr (pyStripStr query)

/-- Dict lookup `_cache.get(key)`. -/
def cacheGet (c : Cache) (k : String) : Option CacheEntry :=
  List.lookup k c

/-- `web_search._evict_expired`: drop every entry that is not fresh. -/
def evictExpired (c : Cache) (now : Nat) : Cache :=
  c.filter (fun kv => kv.2.isFresh now)

/-- Dict assignment `_cache[key] = entry` (replaces any previous entry
for the key). -/
def cacheInsert (c : Cache) (k : String) (e : CacheEntry) : Cache :=
  (k, e) :: c.filter (fun kv => kv.1 ≠ k)

/-- Observable outcome of one `search()` call: the returned results (or
a propagated exception), the cache state afterwards, and whether the
network was used. -/
structure SearchCallResult where
  outcome : Except Unit (List SearchResult)
  cache : Cache
  networkCalled : Bool
deriving DecidableEq

/-- `web_search.search(query, ttl, max_results)` with explicit cache
state, clock and network oracle.  On a fresh cache hit no network call
is made; otherwise expired entries are evicted when the cache is at
capacity, `_search_sync` runs (its exception, if any, propagating with
the eviction already performed on the global cache), and its result is
cached for `ttl` seconds. -/
def searchModel (query : String) (ttl maxResults : Nat) (cache : Cache)
    (now : Nat) (net : Nat → NetOutcome) : SearchCallResult :=
  let key := cacheKey query
  let hit : Option CacheEntry :=
    match cacheGet cache key with
    | some entry => if entry.isFresh now then some entry else none
    | none => none
  match hit with
  | some entry => ⟨.ok entry.results, cache, false⟩
  | none =>
    let cache1 := if _MAX_CACHE_SIZE ≤ cache.length then evictExpired cache now else cache
    match (searchSync net maxResults).result with
    | .error e => ⟨.error e, cache1, true⟩
    | .ok rs => ⟨.ok rs, cacheInsert cache1 key ⟨rs, now + ttl⟩, true⟩

/-! ## Research orchestrator (`agents/researcher.py`)

`research` is embedded over an environment of three oracles: the search
client (`search(sq, ttl=cache_ttl, max_results=mode.sources)`, which can
raise, see `searchSync`), the page fetch client (`fetch_page(url,
max_chars=mode.snippet_chars)`, whose exceptions are captured by
`asyncio.gather(..., return_exceptions=True)`), and the injected LLM
capability (`provider.complete(messages, system=_SUMMARISE_SYSTEM)`).
`asyncio.gather` returns results in task-submission order, so both
fan-outs are modelled as in-order maps.  The query-cleaning step
`_to_search_query` is pure text rewriting no claim constrains; its
output is threaded in as the `searchQuery` argument while the raw
`query` is kept for the prompt, exactly as in the source.
-/

/-- `researcher.ResearchMode`. -/
structure ResearchMode where
  sources : Nat
  snippet_chars : Nat
deriving DecidableEq

/-- `researcher.MODES`. -/
def MODES : List (String × ResearchMode) :=
  [("quick", ⟨3, 800⟩), ("default", ⟨5, 1200⟩), ("deep", ⟨8, 1500⟩)]

/-- Mode selection at the top of `research`:
`mode = MODES.get(mode_name, MODES["default"])`, then the caller
overrides apply when `mode_name == "default"`. -/
def selectMode (mode_name : String) (default_sources default_snippet_chars : Nat) :
    ResearchMode :=
  let mode := (List.lookup mode_name MODES).getD ⟨5, 1200⟩
  if mode_name = "default" then ⟨default_sources, default_snippet_chars⟩ else mode

/-- `fetch_page.PageText`. -/
structure PageText where
  url : String
  title : String
  text : String
deriving DecidableEq

/-- Failure modes of `provider.complete`: `PermissionError` versus any
other `Exception`. -/
inductive LLMError where
  | permissionDenied
  | other
deriving DecidableEq

/-- Oracles for the effectful collaborators of `research`. -/
structure ResearchEnv where
  /-- `search(sq, ttl=cache_ttl, max_results=n)`; `.error ()` models a
  propagated exception (see `searchSync`). -/
  searchFn : String → Nat → Except Unit (List SearchResult)
  /-- `fetch_page(url, max_chars=n)`; `.error ()` models a raised
  exception, captured per-task by `return_exceptions=True`. -/
  fetchFn : String → Nat → Except Unit PageText
  /-- `provider.complete` on the assembled user prompt (the system
  instruction is the fixed `_SUMMARISE_SYSTEM`). -/
  llm : String → Except LLMError String

/-- `asyncio.gather` without `return_exceptions`: all results in
submission order, or a propagated exception if any task raised. -/
def gatherExcept : List (Except Unit α) → Except Unit (List α)
  | [] => .ok []
  | .error e :: _ => .error e
  | .ok x :: rest => (gatherExcept rest).map (x :: ·)

/-- Inner loop of the dedup-and-cap step (lines 265-273): append `r`
when its URL is non-empty and unseen, then break once the accumulator
has reached `cap` elements. -/
def mergeInner (cap : Nat) : List SearchResult → List String → List SearchResult →
    List String × List SearchResult
  | [], seen, acc => (seen, acc)
  | r :: rest, seen, acc =>
    let st :=
      if r.url ≠ "" ∧ ¬ seen.contains r.url then (r.url :: seen, acc ++ [r])
      else (seen, acc)
    if cap ≤ st.2.length then st else mergeInner cap rest st.1 st.2

/-- Outer loop over the per-sub-query result lists, with the same break
condition after each inner pass. -/
def mergeOuter (cap : Nat) : List (List SearchResult) → List String → List SearchResult →
    List SearchResult
  | [], _, acc => acc
  | rs :: rest, seen, acc =>
    let st := mergeInner cap rs seen acc
    if cap ≤ st.2.length then st.2 else mergeOuter cap rest st.1 st.2

/-- The dedup-and-cap step of `research` (step 3). -/
def mergeResults (cap : Nat) (lists : List (List SearchResult)) : List SearchResult :=
  mergeOuter cap lists [] []

/-- Reference definition, from the spec's words: deduplicate a merged
list by exact URL equality, first occurrence winning, preserving order
(`seen` carries the URLs already kept). -/
def dedupByUrl : List SearchResult → List String → List SearchResult
  | [], _ => []
  | r :: rest, seen =>
      if seen.contains r.url then dedupByUrl rest seen
      else r :: dedupByUrl rest (r.url :: seen)

/-- `researcher._domain`: `urlparse(url).netloc or url`.  The netloc of
an absolute HTTP(S) URL is the text between `"://"` and the next `/`,
`?` or `#`; for URLs without an authority it is empty and the whole URL
is returned. -/
def _domain (url : String) : String :=
  match findSub "://".toList url.toList with
  | none => url
  | some idx =>
      let rest := url.toList.drop (idx + 3)
      let netloc := rest.takeWhile (fun c => c ≠ '/' && c ≠ '?' && c ≠ '#')
      if netloc = [] then url else String.mk netloc

/-- One assembled source slot (`research` step 5, lines 291-312). -/
structure SourceEntry where
  index : Nat
  title : String
  url : String
  text : String
deriving DecidableEq

/-- Fixed placeholder when the fetch task raised and the snippet is
empty. -/
def TEXT_UNAVAILABLE : String := "(text unavailable)"

/-- Fixed placeholder when neither fetched text nor snippet is
available. -/
def NO_TEXT_RETRIEVED : String := "(no text retrieved)"

/-- Assembly of one source slot from a search result and its fetch
outcome (loop body of lines 292-312). -/
def assembleOne (i : Nat) (result : SearchResult) (page : Except Unit PageText) :
    SourceEntry :=
  let tt : String × String :=
    match page with
    | .error _ => (pyOr result.snippet TEXT_UNAVAILABLE, result.title)
    | .ok p =>
        (if pyStripStr p.text ≠ "" then pyStripStr p.text else pyOr result.snippet "",
         if pyStripStr p.title ≠ "" then pyStripStr p.title else result.title)
  let text := if tt.1 = "" then NO_TEXT_RETRIEVED else tt.1
  ⟨i, pyOr tt.2 (_domain result.url), result.url, text⟩

/-- `enumerate(zip(all_results, fetched), start=i)` over the assembly
loop. -/
def assembleFrom (i : Nat) : List (SearchResult × Except Unit PageText) → List SourceEntry
  | [] => []
  | (r, p) :: rest => assembleOne i r p :: assembleFrom (i + 1) rest

/-- The source-assembly step of `research` (step 5). -/
def assembleSources (results : List SearchResult)
    (fetched : List (Except Unit PageText)) : List SourceEntry :=
  assembleFrom 1 (results.zip fetched)

/-- One block of `_build_prompt`'s per-source lines. -/
def sourceBlock (s : SourceEntry) : String :=
  "[" ++ toString s.index ++ "] " ++ s.title ++ "\nURL: " ++ s.url ++ "\n" ++ s.text ++ "\n"

/-- `researcher._build_prompt(query, sources)`. -/
def _build_prompt (query : String) (sources : List SourceEntry) : String :=
  String.intercalate "\n"
    (("Query: " ++ query ++ "\n") ::
      (sources.map sourceBlock ++
        ["\nWrite a concise, cited answer using only the sources above. " ++
          "Follow the rules in the system prompt."]))

/-- The fixed "no results" user-facing message (lines 277-280). -/
def NO_RESULTS_MSG : String :=
  "I couldn't find any search results for that query. " ++
    "Please try rephrasing or try again later."

/-- The fixed permission-denied user-facing message (lines 323-326). -/
def PERMISSION_MSG : String :=
  "I don't have access to that resource (403). " ++
    "Please check permissions / sharing settings."

/-- The fixed generic-failure user-facing message (lines 329-332). -/
def PROVIDER_FAILED_MSG : String :=
  "⚠️ The AI provider failed to summarise the results. " ++
    "Please try again in a moment."

/-- `researcher._MAX_TELEGRAM_CHARS`. -/
def _MAX_TELEGRAM_CHARS : Nat := 4000

/-- The oversized-answer guard (lines 335-336). -/
def truncateAnswer (answer : String) : String :=
  if _MAX_TELEGRAM_CHARS < answer.length then
    (answer.take _MAX_TELEGRAM_CHARS) ++ "\n\n(response truncated)"
  else answer

/-- Observable outcome of one `research` invocation: the returned string
(or a propagated exception), the URLs passed to `fetch_page`, the number
of `provider.complete` calls, and the assembled source list. -/
structure ResearchOut where
  outcome : Except Unit String
  fetchedUrls : List String
  llmCalls : Nat
  sources : List SourceEntry
deriving DecidableEq

/-- `researcher.research(query, provider, mode_name=…, cache_ttl=…,
default_sources=…, default_snippet_chars=…)`.  `searchQuery` is
`_to_search_query(query)` (see the section comment). -/
def research (query searchQuery mode_name : String)
    (default_sources default_snippet_chars : Nat) (env : ResearchEnv) : ResearchOut :=
  let mode := selectMode mode_name default_sources default_snippet_chars
  match _decompose searchQuery with
  | .error _ => ⟨.error (), [], 0, []⟩
  | .ok sub_queries =>
    match gatherExcept (sub_queries.map (fun sq => env.searchFn sq mode.sources)) with
    | .error _ => ⟨.error (), [], 0, []⟩
    | .ok search_results_per_query =>
      let all_results := mergeResults mode.sources search_results_per_query
      if all_results.isEmpty then ⟨.ok NO_RESULTS_MSG, [], 0, []⟩
      else
        let fetched := all_results.map (fun r => env.fetchFn r.url mode.snippet_chars)
        let sources := assembleSources all_results fetched
        let prompt := _build_prompt query sources
        let urls := all_results.map (·.url)
        match env.llm prompt with
        | .error .permissionDenied => ⟨.ok PERMISSION_MSG, urls, 1, sources⟩
        | .error .other => ⟨.ok PROVIDER_FAILED_MSG, urls, 1, sources⟩
        | .ok answer => ⟨.ok (truncateAnswer answer), urls, 1, sources⟩

/-- Reference predicate, from the spec's words: the text of a source
slot is the fetched page text when non-empty (the code uses it
stripped), otherwise the search result's snippet when non-empty,
otherwise a fixed non-empty placeholder; a raised fetch does not get
page text, so it goes straight to the snippet-or-placeholder chain. -/
def textFallback (r : SearchResult) (page : Except Unit PageText) (t : String) : Bool :=
  match page with
  | .error _ =>
      (r.snippet != "" && t == r.snippet) || (r.snippet == "" && t == TEXT_UNAVAILABLE)
  | .ok p =>
      (pyStripStr p.text != "" && t == pyStripStr p.text) ||
      (pyStripStr p.text == "" && r.snippet != "" && t == r.snippet) ||
      (pyStripStr p.text == "" && r.snippet == "" && t == NO_TEXT_RETRIEVED)

/-- The tail of `research` after decomposition and the search fan-out
both succeeded, as a function of the per-sub-query results; used to
state and prove the claims about the later pipeline stages. -/
def researchSpec (q : String) (mode : ResearchMode) (env : ResearchEnv)
    (per : List (List SearchResult)) : ResearchOut :=
  let ars := mergeResults mode.sources per
  if ars.isEmpty then ⟨.ok NO_RESULTS_MSG, [], 0, []⟩
  else
    let fetched := ars.map (fun r => env.fetchFn r.url mode.snippet_chars)
    let sources := assembleSources ars fetched
    match env.llm (_build_prompt q sources) with
    | .error .permissionDenied => ⟨.ok PERMISSION_MSG, ars.map (·.url), 1, sources⟩
    | .error .other => ⟨.ok PROVIDER_FAILED_MSG, ars.map (·.url), 1, sources⟩
    | .ok answer => ⟨.ok (truncateAnswer answer), ars.map (·.url), 1, sources⟩

/-! ## Lemmas about the dedup-and-cap step -/

theorem mergeInner_append (cap : Nat) (xs ys : List SearchResult) :
    ∀ seen acc, acc.length < cap →
    mergeInner cap (xs ++ ys) seen acc =
      (if cap ≤ (mergeInner cap xs seen acc).2.length then mergeInner cap xs seen acc
       else mergeInner cap ys (mergeInner cap xs seen acc).1 (mergeInner cap xs seen acc).2) := by
  induction xs with
  | nil =>
    intro seen acc h
    simp [mergeInner, Nat.not_le.mpr h]
  | cons x xs ih =>
    intro seen acc h
    simp only [List.cons_append, mergeInner]
    by_cases hc : x.url ≠ "" ∧ ¬ seen.contains x.url = true
    · simp only [if_pos hc]
      by_cases h2 : cap ≤ acc.length + 1
      · simp [h2]
      · have h2' : (acc ++ [x]).length < cap := by
          simp only [List.length_append, List.length_cons, List.length_nil]
          omega
        simp [h2, ih _ _ h2']
    · simp only [if_neg hc]
      have hn : ¬ cap ≤ acc.length := Nat.not_le.mpr h
      simp [hn, ih _ _ h]

theorem mergeInner_eq_dedup (cap : Nat) :
    ∀ (rs : List SearchResult) (seen : List String) (acc : List SearchResult),
    (∀ r ∈ rs, r.url ≠ "") → acc.length < cap →
    (mergeInner cap rs seen acc).2 = acc ++ (dedupByUrl rs seen).take (cap - acc.length) := by
  intro rs
  induction rs with
  | nil => intro seen acc _ _; simp [mergeInner, dedupByUrl]
  | cons r rest ih =>
    intro seen acc hurl hlen
    have hr : r.url ≠ "" := hurl r (List.mem_cons_self r rest)
    have hrest : ∀ x ∈ rest, x.url ≠ "" := fun x hx => hurl x (List.mem_cons_of_mem r hx)
    by_cases hseen : seen.contains r.url = true
    · have hc : ¬ (r.url ≠ "" ∧ ¬ seen.contains r.url = true) := by
        intro hh; exact hh.2 hseen
      simp only [mergeInner, if_neg hc, Nat.not_le.mpr hlen, if_neg (Nat.not_le.mpr hlen),
        dedupByUrl, if_pos hseen]
      exact ih seen acc hrest hlen
    · have hc : r.url ≠ "" ∧ ¬ seen.contains r.url = true := ⟨hr, hseen⟩
      simp only [mergeInner, if_pos hc, dedupByUrl, if_neg hseen]
      by_cases h2 : cap ≤ acc.length + 1
      · have htake : cap - acc.length = 1 := by omega
        simp [h2, htake]
      · have h2' : (acc ++ [r]).length < cap := by
          simp only [List.length_append, List.length_cons, List.length_nil]
          omega
        have hsub : cap - acc.length = (cap - (acc ++ [r]).length) + 1 := by
          simp only [List.length_append, List.length_cons, List.length_nil]
          omega
        simp only [List.length_append, List.length_cons, List.length_nil] at h2 ⊢
        rw [if_neg (by omega : ¬ cap ≤ acc.length + (0 + 1))]
        rw [ih _ _ hrest h2', hsub, List.take_succ_cons, List.append_assoc]
        simp

theorem mergeOuter_eq_flatten (cap : Nat) :
    ∀ (ls : List (List SearchResult)) (seen : List String) (acc : List SearchResult),
    acc.length < cap →
    mergeOuter cap ls seen acc = (mergeInner cap ls.flatten seen acc).2 := by
  intro ls
  induction ls with
  | nil => intro seen acc _; simp [mergeOuter, mergeInner]
  | cons l ls ih =>
    intro seen acc h
    simp only [mergeOuter, List.flatten_cons, mergeInner_append cap l ls.flatten seen acc h]
    by_cases h2 : cap ≤ (mergeInner cap l seen acc).2.length
    · simp [h2]
    · simp [h2, ih _ _ (Nat.not_le.mp h2)]

theorem mergeResults_eq_dedup (cap : Nat) (lists : List (List SearchResult))
    (hcap : 1 ≤ cap) (hurl : ∀ r ∈ lists.flatten, r.url ≠ "") :
    mergeResults cap lists = (dedupByUrl lists.flatten []).take cap := by
  have h0 : ([] : List SearchResult).length < cap := by simpa using hcap
  rw [mergeResults, mergeOuter_eq_flatten cap lists [] [] h0,
    mergeInner_eq_dedup cap lists.flatten [] [] hurl h0]
  simp

theorem dedupByUrl_filter_of_seen (u : String) :
    ∀ (l : List SearchResult) (seen : List String), seen.contains u = true →
    (dedupByUrl l seen).filter (fun r => r.url = u) = [] := by
  intro l
  induction l with
  | nil => intro seen _; simp [dedupByUrl]
  | cons r rest ih =>
    intro seen hseen
    by_cases hc : seen.contains r.url = true
    · simp only [dedupByUrl, if_pos hc]; exact ih seen hseen
    · have hne : r.url ≠ u := by
        intro hh; rw [hh] at hc; exact hc hseen
      simp only [dedupByUrl, if_neg hc, List.filter_cons, decide_eq_true_eq, hne,
        if_neg hne]
      have hcont : (r.url :: seen).contains u = true := by
        simp only [List.contains_cons, Bool.or_eq_true]
        exact Or.inr hseen
      simpa [hne] using ih (r.url :: seen) hcont

theorem dedupByUrl_filter_len_le_one (u : String) :
    ∀ (l : List SearchResult) (seen : List String),
    ((dedupByUrl l seen).filter (fun r => r.url = u)).length ≤ 1 := by
  intro l
  induction l with
  | nil => intro seen; simp [dedupByUrl]
  | cons r rest ih =>
    intro seen
    by_cases hc : seen.contains r.url = true
    · simp only [dedupByUrl, if_pos hc]; exact ih seen
    · simp only [dedupByUrl, if_neg hc, List.filter_cons]
      by_cases hu : r.url = u
      · subst hu
        have hcont : (r.url :: seen).contains r.url = true := by
          simp [List.contains_cons]
        have ht := dedupByUrl_filter_of_seen r.url rest (r.url :: seen) hcont
        simp [ht]
      · simpa [hu] using ih (r.url :: seen)

/-! ## Claim theorems -/

/-- Claim C5: the orchestrator's merge step preserves the order the
sub-queries were issued and, within each list, the order results were
returned; it deduplicates by exact URL equality with the first
occurrence winning, stopping once the merged unique list reaches the
mode's source count.  Formally, for every cap with 1 ≤ cap (every mode
preset and the validated configuration give cap ≥ 1) and per-sub-query
result lists whose URLs are non-empty (as the search client guarantees,
since it keeps only URLs starting with "http"), the merged list equals
the first-occurrence deduplication of the in-order concatenation,
truncated to cap; consequently any URL — in particular one shared by two
sub-query result sets — appears in the merged output at most once, at
the position of its first occurrence. -/
theorem orchestrator_merge_dedup_cap (cap : Nat) (lists : List (List SearchResult))
    (hcap : 1 ≤ cap) (hurl : ∀ r ∈ lists.flatten, r.url ≠ "") :
    mergeResults cap lists = (dedupByUrl lists.flatten []).take cap ∧
    ∀ u : String, ((mergeResults cap lists).filter (fun r => r.url = u)).length ≤ 1 := by
  have heq := mergeResults_eq_dedup cap lists hcap hurl
  refine ⟨heq, fun u => ?_⟩
  rw [heq]
  exact le_trans
    (((List.take_sublist cap (dedupByUrl lists.flatten [])).filter _).length_le)
    (dedupByUrl_filter_len_le_one u lists.flatten [])

/-- Witness for `orchestrator_merge_dedup_cap` on two overlapping
sub-query result lists sharing the URL "https://b/". -/
theorem orchestrator_merge_dedup_cap_witness :
    mergeResults 2 [[⟨"https://a/", "ta", "sa"⟩, ⟨"https://b/", "tb", "sb"⟩],
        [⟨"https://b/", "tb", "sb"⟩, ⟨"https://c/", "tc", "sc"⟩]] =
      (dedupByUrl ([[⟨"https://a/", "ta", "sa"⟩, ⟨"https://b/", "tb", "sb"⟩],
          [⟨"https://b/", "tb", "sb"⟩, ⟨"https://c/", "tc", "sc"⟩]] :
            List (List SearchResult)).flatten []).take 2 ∧
    ((mergeResults 2 [[⟨"https://a/", "ta", "sa"⟩, ⟨"https://b/", "tb", "sb"⟩],
        [⟨"https://b/", "tb", "sb"⟩, ⟨"https://c/", "tc", "sc"⟩]]).filter
          (fun r => r.url = "https://b/")).length ≤ 1 :=
  ⟨(orchestrator_merge_dedup_cap 2 _ (by decide) (by decide)).1,
   (orchestrator_merge_dedup_cap 2 _ (by decide) (by decide)).2 "https://b/"⟩

/-- Claim C3 (code bug): `_decompose` is documented to return 1-3
de-duplicated, non-empty entries for every query, but (a) a query whose
" and " separator appears only in upper case, longer than 40
characters, makes the body raise `IndexError` — the membership test
uses the lowercased query while `q.split(" and ", 1)` is
case-sensitive, so `parts` has one element and `parts[1]` is evaluated
because `len(parts[0].strip()) > 10`; and (b) "foo vs foo" returns
["foo", "foo"], which is not de-duplicated. -/
theorem decompose_contract_violations :
    _decompose "TOP TECHNOLOGY TRENDS AND MARKET FORECASTS 2026" = .error () ∧
    _decompose "foo vs foo" = .ok ["foo", "foo"] := by
  decide

/-- Claim C10: with a mode name other than "quick", "default" or
"deep", the orchestrator silently falls back to the built-in default
preset (5 sources, 1200 snippet characters); the `default_sources` and
`default_snippet_chars` overrides take effect only when the mode name
is exactly "default", so for every other mode name — unknown ones
included — the invocation's entire observable behaviour is independent
of the caller-supplied overrides. -/
theorem research_mode_fallback (name q sq : String) (ds dsc ds2 dsc2 : Nat)
    (env : ResearchEnv) :
    (name ≠ "quick" → name ≠ "default" → name ≠ "deep" →
      selectMode name ds dsc = ⟨5, 1200⟩) ∧
    (name ≠ "default" →
      research q sq name ds dsc env = research q sq name ds2 dsc2 env) := by
  constructor
  · intro h1 h2 h3
    have b1 : (name == "quick") = false := by simp [h1]
    have b2 : (name == "default") = false := by simp [h2]
    have b3 : (name == "deep") = false := by simp [h3]
    simp [selectMode, MODES, List.lookup, b1, b2, b3, h2]
  · intro h2
    have hsel : selectMode name ds dsc = selectMode name ds2 dsc2 := by
      simp [selectMode, h2]
    unfold research
    rw [hsel]

/-- Witness for `research_mode_fallback` at the unknown mode name
"mystery". -/
theorem research_mode_fallback_witness :
    selectMode "mystery" 99 77 = ⟨5, 1200⟩ ∧
    research "q" "q" "mystery" 99 77
        ⟨fun _ _ => .ok [], fun _ _ => .ok ⟨"", "", ""⟩, fun _ => .ok "a"⟩ =
      research "q" "q" "mystery" 5 1200
        ⟨fun _ _ => .ok [], fun _ _ => .ok ⟨"", "", ""⟩, fun _ => .ok "a"⟩ :=
  ⟨(research_mode_fallback "mystery" "q" "q" 99 77 5 1200
      ⟨fun _ _ => .ok [], fun _ _ => .ok ⟨"", "", ""⟩, fun _ => .ok "a"⟩).1
      (by decide) (by decide) (by decide),
   (research_mode_fallback "mystery" "q" "q" 99 77 5 1200
      ⟨fun _ _ => .ok [], fun _ _ => .ok ⟨"", "", ""⟩, fun _ => .ok "a"⟩).2
      (by decide)⟩

/-- Claim C2 counterexample: `_search_sync` is claimed never to raise,
but it only catches `HTTPError` and `URLError`; on a successful HTTP
response that declares `Content-Encoding: gzip` with a body that is not
valid gzip, `gzip.decompress` raises `BadGzipFile` (an uncaught
`OSError`), so `search` raises instead of returning an empty list. -/
theorem search_sync_raises_on_bad_gzip :
    (searchSync (fun _ => .success true false []) 5).result = .error () := by
  decide

theorem searchSyncFrom_error_characterisation (net : Nat → NetOutcome) (m : Nat) :
    ∀ (fuel attempt : Nat) (e : Unit),
    (searchSyncFrom net m attempt fuel).result = .error e →
    ∃ k, attempt ≤ k ∧ k < attempt + fuel ∧
      ∃ parsed, net k = .success true false parsed := by
  intro fuel
  induction fuel with
  | zero => intro attempt e h; simp [searchSyncFrom] at h
  | succ fuel ih =>
    intro attempt e h
    rcases hn : net attempt with ⟨g, gv, parsed⟩ | code | _
    · rw [searchSyncFrom, hn] at h
      by_cases hb : g && !gv
      · have hg : g = true ∧ gv = false := by
          constructor
          · exact (Bool.and_elim_left hb)
          · simpa using (Bool.and_elim_right hb)
        exact ⟨attempt, le_refl _, by omega, parsed, by rw [hn, hg.1, hg.2]⟩
      · simp [hb] at h
    · rw [searchSyncFrom, hn] at h
      by_cases hc : code < 500
      · simp [hc] at h
      · by_cases hf : fuel = 0
        · simp [hc, hf] at h
        · simp only [hc, if_false, hf, if_neg hf] at h
          obtain ⟨k, hk1, hk2, hp⟩ := ih (attempt + 1) e h
          exact ⟨k, by omega, by omega, hp⟩
    · rw [searchSyncFrom, hn] at h
      by_cases hf : fuel = 0
      · simp [hf] at h
      · simp only [hf, if_neg hf] at h
        obtain ⟨k, hk1, hk2, hp⟩ := ih (attempt + 1) e h
        exact ⟨k, by omega, by omega, hp⟩

/-- Claim C2 (amended): `_search_sync` returns an empty list immediately
and without retrying on an HTTP 4xx response; on network-level errors
and HTTP 5xx responses it retries up to `_MAX_RETRIES` attempts with
exponential backoff (sleeping 1 s then 2 s) and returns an empty list
when all attempts fail; a successful response whose body processing
does not raise returns the parsed results without raising; however the
function is not exception-free: an exception can escape the
response-body processing of a successful response (gzip declared but
invalid body), and that is the only way it raises. -/
theorem search_sync_retry_policy (net : Nat → NetOutcome) (maxResults : Nat) :
    (∀ c, net 1 = .httpError c → c < 500 →
      searchSync net maxResults = ⟨.ok [], []⟩) ∧
    ((∀ k, 1 ≤ k → k ≤ _MAX_RETRIES → Retryable (net k)) →
      searchSync net maxResults = ⟨.ok [], [backoffDelay 1, backoffDelay 2]⟩) ∧
    (∀ g gv parsed, net 1 = .success g gv parsed → (g = false ∨ gv = true) →
      searchSync net maxResults = ⟨.ok (postProcess parsed maxResults), []⟩) ∧
    (∀ e, (searchSync net maxResults).result = .error e →
      ∃ k, 1 ≤ k ∧ k ≤ _MAX_RETRIES ∧
        ∃ parsed, net k = .success true false parsed) := by
  refine ⟨?_, ?_, ?_, ?_⟩
  · intro c h1 hc
    simp [searchSync, _MAX_RETRIES, searchSyncFrom, h1, hc]
  · intro hret
    have h1 := hret 1 (by norm_num) (by norm_num [_MAX_RETRIES])
    have h2 := hret 2 (by norm_num) (by norm_num [_MAX_RETRIES])
    have h3 := hret 3 (by norm_num) (by norm_num [_MAX_RETRIES])
    rcases h1 with h1 | ⟨c1, h1, hc1⟩ <;>
      rcases h2 with h2 | ⟨c2, h2, hc2⟩ <;>
        rcases h3 with h3 | ⟨c3, h3, hc3⟩ <;>
          simp [searchSync, _MAX_RETRIES, searchSyncFrom, h1, h2, h3, backoffDelay,
            Nat.not_lt.mpr, *]
  · intro g gv parsed h1 hgv
    rcases hgv with h | h <;>
      simp [searchSync, _MAX_RETRIES, searchSyncFrom, h1, h]
  · intro e herr
    obtain ⟨k, hk1, hk2, hp⟩ :=
      searchSyncFrom_error_characterisation net maxResults _MAX_RETRIES 1 e herr
    exact ⟨k, hk1, by omega, hp⟩

/-- Witness for `search_sync_retry_policy`: a 4xx response returns
empty with no retry; three network errors return empty after backoff
sleeps of 1 s and 2 s. -/
theorem search_sync_retry_policy_witness :
    searchSync (fun _ => NetOutcome.httpError 404) 5 = ⟨.ok [], []⟩ ∧
    searchSync (fun _ => NetOutcome.netError) 5 =
      ⟨.ok [], [backoffDelay 1, backoffDelay 2]⟩ :=
  ⟨(search_sync_retry_policy (fun _ => NetOutcome.httpError 404) 5).1 404 rfl
      (by norm_num),
   (search_sync_retry_policy (fun _ => NetOutcome.netError) 5).2.1
      (fun _ _ _ => Or.inl rfl)⟩

/-- Claim C4 counterexample: `_search_sync` truncates the parsed list to
`max_results` **before** filtering out non-"http" URLs, so a response
body parsing to one discarded result followed by one absolute HTTP(S)
result yields zero results with `max_results = 1` even though one
parsed result has an absolute HTTP(S) URL; moreover the filter only
checks the prefix "http", so a kept URL need not be an absolute HTTP(S)
URL. -/
theorem search_truncate_before_filter :
    (searchSync (fun _ => .success false true
        [⟨"javascript:void(0)", "t", "s"⟩, ⟨"https://example.com/a", "t2", "s2"⟩]) 1).result
      = .ok [] ∧
    specAbsHttp "https://example.com/a" = true ∧
    postProcess [⟨"httpgarbage", "t", "s"⟩] 1 = [⟨"httpgarbage", "t", "s"⟩] ∧
    specAbsHttp "httpgarbage" = false := by
  decide

/-- Claim C4 (amended): the parsed results are first truncated to
`maxResults` and then those whose URL does not start with "http" are
discarded; hence at most `maxResults` results are returned and every
returned URL starts with "http"; when every one of the first
`maxResults` parsed results has a URL starting with "http" (and at
least `maxResults` were parsed), exactly `maxResults` results are
returned; and a successful first attempt returns exactly this
post-processed list. -/
theorem search_filter_truncate (parsed : List SearchResult) (mr : Nat) :
    (postProcess parsed mr).length ≤ mr ∧
    (∀ r ∈ postProcess parsed mr, pyStartsWith r.url "http" = true) ∧
    ((∀ r ∈ parsed.take mr, pyStartsWith r.url "http" = true) → mr ≤ parsed.length →
      postProcess parsed mr = parsed.take mr ∧ (postProcess parsed mr).length = mr) ∧
    (∀ net : Nat → NetOutcome, net 1 = .success false true parsed →
      (searchSync net mr).result = .ok (postProcess parsed mr)) := by
  refine ⟨?_, ?_, ?_, ?_⟩
  · exact le_trans (List.length_filter_le _ _) (by simp [List.length_take])
  · intro r hr
    exact (List.mem_filter.mp hr).2
  · intro hall hlen
    have heq : postProcess parsed mr = parsed.take mr :=
      List.filter_eq_self.mpr hall
    exact ⟨heq, by rw [heq]; simp [List.length_take]; omega⟩
  · intro net h1
    simp [searchSync, _MAX_RETRIES, searchSyncFrom, h1]

/-- Witness for `search_filter_truncate` on a two-element parsed list of
absolute HTTP(S) URLs with `maxResults = 1`. -/
theorem search_filter_truncate_witness :
    postProcess [⟨"https://a/", "t", "s"⟩, ⟨"https://b/", "t2", "s2"⟩] 1 =
        ([⟨"https://a/", "t", "s"⟩, ⟨"https://b/", "t2", "s2"⟩] :
          List SearchResult).take 1 ∧
    (postProcess [⟨"https://a/", "t", "s"⟩, ⟨"https://b/", "t2", "s2"⟩] 1).length = 1 :=
  (search_filter_truncate [⟨"https://a/", "t", "s"⟩, ⟨"https://b/", "t2", "s2"⟩] 1).2.2.1
    (by decide) (by decide)

theorem cacheGet_cacheInsert (c : Cache) (k : String) (e : CacheEntry) :
    cacheGet (cacheInsert c k e) k = some e := by
  simp [cacheGet, cacheInsert, List.lookup]

theorem searchModel_hit (q : String) (ttl mr : Nat) (c : Cache) (now : Nat)
    (net : Nat → NetOutcome) (e : CacheEntry)
    (hg : cacheGet c (cacheKey q) = some e) (hf : e.isFresh now = true) :
    searchModel q ttl mr c now net = ⟨.ok e.results, c, false⟩ := by
  simp [searchModel, hg, hf]

theorem searchModel_miss_networkCalled (q : String) (ttl mr : Nat) (c : Cache)
    (now : Nat) (net : Nat → NetOutcome)
    (h : ∀ e, cacheGet c (cacheKey q) = some e → e.isFresh now = false) :
    (searchModel q ttl mr c now net).networkCalled = true := by
  rcases hg : cacheGet c (cacheKey q) with _ | e
  · rcases hs : (searchSync net mr).result with e0 | rs0 <;>
      simp [searchModel, hg, hs]
  · rcases hs : (searchSync net mr).result with e0 | rs0 <;>
      simp [searchModel, hg, h e hg, hs]

/-- Claim C9: a cache lookup returns an entry only while `now <
expiresAt` (and then the identical stored result list, with no network
request and no cache mutation); after a `search` call that populated
the cache, a second call with the same normalised (case-folded,
trimmed) query issued before `ttl` seconds elapse returns the
identical cached result list with no network request; a call once the
TTL has elapsed issues a new network request; and expired entries are
purged before insertion when the cache has reached its capacity
bound. -/
theorem search_cache_ttl :
    (∀ (q : String) (ttl mr : Nat) (c : Cache) (now : Nat) (net : Nat → NetOutcome),
      (searchModel q ttl mr c now net).networkCalled = false →
      ∃ e, cacheGet c (cacheKey q) = some e ∧ now < e.expires ∧
        searchModel q ttl mr c now net = ⟨.ok e.results, c, false⟩) ∧
    (∀ (q1 q2 : String) (ttl mr mr2 t0 t1 : Nat) (c0 : Cache)
      (net net2 : Nat → NetOutcome) (rs : List SearchResult),
      cacheGet c0 (cacheKey q1) = none →
      (searchSync net mr).result = .ok rs →
      cacheKey q2 = cacheKey q1 →
      t1 < t0 + ttl →
      searchModel q2 ttl mr2 (searchModel q1 ttl mr c0 t0 net).cache t1 net2 =
        ⟨.ok rs, (searchModel q1 ttl mr c0 t0 net).cache, false⟩) ∧
    (∀ (q1 q2 : String) (ttl mr mr2 t0 t1 : Nat) (c0 : Cache)
      (net net2 : Nat → NetOutcome) (rs : List SearchResult),
      cacheGet c0 (cacheKey q1) = none →
      (searchSync net mr).result = .ok rs →
      cacheKey q2 = cacheKey q1 →
      t0 + ttl ≤ t1 →
      (searchModel q2 ttl mr2 (searchModel q1 ttl mr c0 t0 net).cache t1 net2).networkCalled
        = true) ∧
    (∀ (q : String) (ttl mr : Nat) (c : Cache) (now : Nat) (net : Nat → NetOutcome)
      (rs : List SearchResult),
      cacheGet c (cacheKey q) = none →
      (searchSync net mr).result = .ok rs →
      _MAX_CACHE_SIZE ≤ c.length →
      (searchModel q ttl mr c now net).cache =
        cacheInsert (evictExpired c now) (cacheKey q) ⟨rs, now + ttl⟩) := by
  refine ⟨?_, ?_, ?_, ?_⟩
  · intro q ttl mr c now net h
    rcases hg : cacheGet c (cacheKey q) with _ | e
    · exfalso
      rcases hs : (searchSync net mr).result with e0 | rs0 <;>
        simp [searchModel, hg, hs] at h
    · by_cases hf : e.isFresh now
      · refine ⟨e, rfl, ?_, ?_⟩
        · simpa [CacheEntry.isFresh] using hf
        · simp [searchModel, hg, hf]
      · exfalso
        rcases hs : (searchSync net mr).result with e0 | rs0 <;>
          simp [searchModel, hg, hf, hs] at h
  · intro q1 q2 ttl mr mr2 t0 t1 c0 net net2 rs hmiss hnet hkey ht
    have hcache : (searchModel q1 ttl mr c0 t0 net).cache =
        cacheInsert (if _MAX_CACHE_SIZE ≤ c0.length then evictExpired c0 t0 else c0)
          (cacheKey q1) ⟨rs, t0 + ttl⟩ := by
      simp [searchModel, hmiss, hnet]
    have hfresh : CacheEntry.isFresh ⟨rs, t0 + ttl⟩ t1 = true := by
      simpa [CacheEntry.isFresh] using ht
    exact searchModel_hit q2 ttl mr2 _ t1 net2 ⟨rs, t0 + ttl⟩
      (by rw [hkey, hcache]; exact cacheGet_cacheInsert _ _ _) hfresh
  · intro q1 q2 ttl mr mr2 t0 t1 c0 net net2 rs hmiss hnet hkey ht
    have hcache : (searchModel q1 ttl mr c0 t0 net).cache =
        cacheInsert (if _MAX_CACHE_SIZE ≤ c0.length then evictExpired c0 t0 else c0)
          (cacheKey q1) ⟨rs, t0 + ttl⟩ := by
      simp [searchModel, hmiss, hnet]
    have hstale : CacheEntry.isFresh ⟨rs, t0 + ttl⟩ t1 = false := by
      simpa [CacheEntry.isFresh] using Nat.not_lt.mpr ht
    refine searchModel_miss_networkCalled q2 ttl mr2 _ t1 net2 ?_
    intro e hg
    rw [hkey, hcache, cacheGet_cacheInsert] at hg
    cases hg
    exact hstale
  · intro q ttl mr c now net rs hmiss hnet hcap
    simp [searchModel, hmiss, hnet, hcap]

/-- Witness for `search_cache_ttl`: after a search for " A" at time 0
with `ttl = 180`, a search for "a" (same normalised query) at time 100
hits the cache with the identical results and no network request, and
one at time 180 goes to the network again. -/
theorem search_cache_ttl_witness :
    searchModel "a" 180 5
        ((searchModel " A" 180 5 [] 0
          (fun _ => .success false true [⟨"https://w/", "t", "s"⟩])).cache) 100
        (fun _ => .success false true [⟨"https://w/", "t", "s"⟩]) =
      ⟨.ok [⟨"https://w/", "t", "s"⟩],
        (searchModel " A" 180 5 [] 0
          (fun _ => .success false true [⟨"https://w/", "t", "s"⟩])).cache, false⟩ ∧
    (searchModel "a" 180 5
        ((searchModel " A" 180 5 [] 0
          (fun _ => .success false true [⟨"https://w/", "t", "s"⟩])).cache) 180
        (fun _ => .success false true [⟨"https://w/", "t", "s"⟩])).networkCalled = true :=
  ⟨search_cache_ttl.2.1 " A" "a" 180 5 5 0 100 []
      (fun _ => .success false true [⟨"https://w/", "t", "s"⟩])
      (fun _ => .success false true [⟨"https://w/", "t", "s"⟩])
      [⟨"https://w/", "t", "s"⟩] rfl (by decide) (by decide) (by decide),
   search_cache_ttl.2.2.1 " A" "a" 180 5 5 0 180 []
      (fun _ => .success false true [⟨"https://w/", "t", "s"⟩])
      (fun _ => .success false true [⟨"https://w/", "t", "s"⟩])
      [⟨"https://w/", "t", "s"⟩] rfl (by decide) (by decide) (by decide)⟩

theorem research_eq_researchSpec (q sq m : String) (ds dsc : Nat) (env : ResearchEnv)
    (qs : List String) (per : List (List SearchResult))
    (hd : _decompose sq = .ok qs)
    (hg : gatherExcept (qs.map (fun s => env.searchFn s (selectMode m ds dsc).sources))
      = .ok per) :
    research q sq m ds dsc env = researchSpec q (selectMode m ds dsc) env per := by
  simp only [research, researchSpec, hd, hg]

/-- Claim C1: per `research` invocation, the injected LLM capability's
`complete` operation is invoked at most once; when query decomposition
and the search fan-out complete without raising, it is invoked exactly
once if at least one unique search result survives deduplication and
never when zero survive; and it is never called a second time (no
retry), whatever the call's outcome. -/
theorem research_llm_at_most_once (q sq m : String) (ds dsc : Nat) (env : ResearchEnv) :
    (research q sq m ds dsc env).llmCalls ≤ 1 ∧
    (∀ qs per, _decompose sq = .ok qs →
      gatherExcept (qs.map (fun s => env.searchFn s (selectMode m ds dsc).sources))
        = .ok per →
      (research q sq m ds dsc env).llmCalls =
        if mergeResults (selectMode m ds dsc).sources per = [] then 0 else 1) := by
  constructor
  · rcases hd : _decompose sq with e | qs
    · simp [research, hd]
    · rcases hg : gatherExcept (qs.map (fun s => env.searchFn s (selectMode m ds dsc).sources))
        with e | per
      · simp [research, hd, hg]
      · rw [research_eq_researchSpec q sq m ds dsc env qs per hd hg]
        unfold researchSpec
        by_cases he : (mergeResults (selectMode m ds dsc).sources per).isEmpty
        · simp [he]
        · simp only [he, if_false, Bool.false_eq_true]
          split <;> simp
  · intro qs per hd hg
    rw [research_eq_researchSpec q sq m ds dsc env qs per hd hg]
    unfold researchSpec
    by_cases he : mergeResults (selectMode m ds dsc).sources per = []
    · simp [he]
    · have he2 : (mergeResults (selectMode m ds dsc).sources per).isEmpty = false := by
        simpa [List.isEmpty_iff] using he
      simp only [he2, Bool.false_eq_true, if_false, he, if_neg he]
      split <;> simp

/-- Witness for `research_llm_at_most_once`: one sub-query, one
surviving result, successful LLM call — exactly one invocation. -/
theorem research_llm_at_most_once_witness :
    (research "q" "q" "quick" 5 1200
      ⟨fun _ _ => .ok [⟨"https://w/", "t", "s"⟩],
       fun u _ => .ok ⟨u, "T", "body"⟩, fun _ => .ok "ans"⟩).llmCalls =
      if mergeResults (selectMode "quick" 5 1200).sources [[⟨"https://w/", "t", "s"⟩]] = []
      then 0 else 1 :=
  (research_llm_at_most_once "q" "q" "quick" 5 1200
      ⟨fun _ _ => .ok [⟨"https://w/", "t", "s"⟩],
       fun u _ => .ok ⟨u, "T", "body"⟩, fun _ => .ok "ans"⟩).2
    ["q"] [[⟨"https://w/", "t", "s"⟩]] (by decide) rfl

/-- Claim C6: when zero unique search results survive merging and
deduplication, `research` returns the fixed user-facing "no results"
message, performs no page fetch and makes no LLM call. -/
theorem research_no_results_short_circuit (q sq m : String) (ds dsc : Nat)
    (env : ResearchEnv) (qs : List String) (per : List (List SearchResult))
    (hd : _decompose sq = .ok qs)
    (hg : gatherExcept (qs.map (fun s => env.searchFn s (selectMode m ds dsc).sources))
      = .ok per)
    (hme : mergeResults (selectMode m ds dsc).sources per = []) :
    research q sq m ds dsc env = ⟨.ok NO_RESULTS_MSG, [], 0, []⟩ := by
  rw [research_eq_researchSpec q sq m ds dsc env qs per hd hg]
  simp [researchSpec, hme]

/-- Witness for `research_no_results_short_circuit`: every sub-query
search returns zero results. -/
theorem research_no_results_short_circuit_witness :
    research "q" "q" "default" 5 1200
      ⟨fun _ _ => .ok [], fun u _ => .ok ⟨u, "T", "body"⟩, fun _ => .ok "ans"⟩ =
      ⟨.ok NO_RESULTS_MSG, [], 0, []⟩ :=
  research_no_results_short_circuit "q" "q" "default" 5 1200
    ⟨fun _ _ => .ok [], fun u _ => .ok ⟨u, "T", "body"⟩, fun _ => .ok "ans"⟩
    ["q"] [[]] (by decide) rfl (by decide)

/-- Claim C8: when the single LLM summarisation call fails with a
permission-denied condition, `research` returns the fixed user-facing
permission-denied message; when it fails with any other error,
`research` returns a different fixed user-facing failure message; in
both cases `research` returns normally and the LLM call is not
retried (exactly one call is made). -/
theorem research_llm_failure_messages (q sq m : String) (ds dsc : Nat)
    (env : ResearchEnv) (qs : List String) (per : List (List SearchResult))
    (e : LLMError)
    (hd : _decompose sq = .ok qs)
    (hg : gatherExcept (qs.map (fun s => env.searchFn s (selectMode m ds dsc).sources))
      = .ok per)
    (hne : mergeResults (selectMode m ds dsc).sources per ≠ [])
    (hllm : ∀ p, env.llm p = .error e) :
    (research q sq m ds dsc env).outcome =
      .ok (if e = .permissionDenied then PERMISSION_MSG else PROVIDER_FAILED_MSG) ∧
    (research q sq m ds dsc env).llmCalls = 1 ∧
    PERMISSION_MSG ≠ PROVIDER_FAILED_MSG := by
  rw [research_eq_researchSpec q sq m ds dsc env qs per hd hg]
  have he2 : (mergeResults (selectMode m ds dsc).sources per).isEmpty = false := by
    simpa [List.isEmpty_iff] using hne
  unfold researchSpec
  simp only [he2, Bool.false_eq_true, if_false, hllm]
  cases e <;> simp <;> decide

/-- Witness for `research_llm_failure_messages` with a
permission-denied LLM failure. -/
theorem research_llm_failure_messages_witness :
    (research "q" "q" "quick" 5 1200
      ⟨fun _ _ => .ok [⟨"https://w/", "t", "s"⟩],
       fun u _ => .ok ⟨u, "T", "body"⟩,
       fun _ => .error .permissionDenied⟩).outcome =
      .ok (if LLMError.permissionDenied = .permissionDenied then PERMISSION_MSG
           else PROVIDER_FAILED_MSG) ∧
    (research "q" "q" "quick" 5 1200
      ⟨fun _ _ => .ok [⟨"https://w/", "t", "s"⟩],
       fun u _ => .ok ⟨u, "T", "body"⟩,
       fun _ => .error .permissionDenied⟩).llmCalls = 1 ∧
    PERMISSION_MSG ≠ PROVIDER_FAILED_MSG :=
  research_llm_failure_messages "q" "q" "quick" 5 1200
    ⟨fun _ _ => .ok [⟨"https://w/", "t", "s"⟩],
     fun u _ => .ok ⟨u, "T", "body"⟩, fun _ => .error .permissionDenied⟩
    ["q"] [[⟨"https://w/", "t", "s"⟩]] .permissionDenied
    (by decide) rfl (by decide) (fun _ => rfl)

theorem assembleFrom_length (ps : List (SearchResult × Except Unit PageText)) :
    ∀ i, (assembleFrom i ps).length = ps.length := by
  induction ps with
  | nil => intro i; simp [assembleFrom]
  | cons hd tl ih => intro i; simp [assembleFrom, ih]

theorem assembleFrom_get (ps : List (SearchResult × Except Unit PageText)) :
    ∀ (i j : Nat) (hj : j < (assembleFrom i ps).length) (hj2 : j < ps.length),
    (assembleFrom i ps).get ⟨j, hj⟩ =
      assembleOne (i + j) (ps.get ⟨j, hj2⟩).1 (ps.get ⟨j, hj2⟩).2 := by
  induction ps with
  | nil => intro i j hj hj2; exact absurd hj2 (by simp)
  | cons hd tl ih =>
    intro i j hj hj2
    cases j with
    | zero => simp [assembleFrom]
    | succ j =>
      have hj' : j < (assembleFrom (i + 1) tl).length := by
        have := hj
        simp only [assembleFrom, List.length_cons] at this
        omega
      have hj2' : j < tl.length := by
        simpa using hj2
      have hrec := ih (i + 1) j hj' hj2'
      have harith : i + 1 + j = i + (j + 1) := by omega
      rw [harith] at hrec
      simpa [assembleFrom] using hrec

theorem assembleOne_spec (i : Nat) (r : SearchResult) (p : Except Unit PageText) :
    (assembleOne i r p).index = i ∧ (assembleOne i r p).url = r.url ∧
    (assembleOne i r p).text ≠ "" ∧
    textFallback r p (assembleOne i r p).text = true := by
  rcases p with u | pg
  · by_cases hs : r.snippet = "" <;>
      simp [assembleOne, pyOr, textFallback, hs, TEXT_UNAVAILABLE]
  · by_cases ht : pyStripStr pg.text = "" <;> by_cases hs : r.snippet = "" <;>
      simp [assembleOne, pyOr, textFallback, ht, hs, NO_TEXT_RETRIEVED]

theorem zip_map_self (l : List SearchResult) (f : SearchResult → Except Unit PageText) :
    l.zip (l.map f) = l.map (fun r => (r, f r)) := by
  have h := List.zip_map' (fun r : SearchResult => r) f l
  simpa using h

theorem assembleSources_spec (results : List SearchResult)
    (f : SearchResult → Except Unit PageText) :
    (assembleSources results (results.map f)).length = results.length ∧
    ∀ (j : Nat) (hj : j < (assembleSources results (results.map f)).length)
      (hj2 : j < results.length),
      ((assembleSources results (results.map f)).get ⟨j, hj⟩).index = j + 1 ∧
      ((assembleSources results (results.map f)).get ⟨j, hj⟩).url
        = (results.get ⟨j, hj2⟩).url ∧
      ((assembleSources results (results.map f)).get ⟨j, hj⟩).text ≠ "" ∧
      textFallback (results.get ⟨j, hj2⟩) (f (results.get ⟨j, hj2⟩))
        ((assembleSources results (results.map f)).get ⟨j, hj⟩).text = true := by
  have hzip : results.zip (results.map f) = results.map (fun r => (r, f r)) :=
    zip_map_self results f
  constructor
  · simp [assembleSources, hzip, assembleFrom_length]
  · intro j hj hj2
    have hj3 : j < (results.map (fun r => (r, f r))).length := by simpa using hj2
    have hget : (assembleSources results (results.map f)).get ⟨j, hj⟩ =
        assembleOne (1 + j) (results.get ⟨j, hj2⟩) (f (results.get ⟨j, hj2⟩)) := by
      have hj4 : j < (assembleFrom 1 (results.map (fun r => (r, f r)))).length := by
        simpa [assembleSources, hzip] using hj
      have h1 : (assembleSources results (results.map f)).get ⟨j, hj⟩ =
          (assembleFrom 1 (results.map (fun r => (r, f r)))).get ⟨j, hj4⟩ := by
        apply List.get_of_eq
        simp [assembleSources, hzip]
      rw [h1, assembleFrom_get _ 1 j hj4 hj3]
      simp [List.getElem_map]
    obtain ⟨h1, h2, h3, h4⟩ :=
      assembleOne_spec (1 + j) (results.get ⟨j, hj2⟩) (f (results.get ⟨j, hj2⟩))
    rw [hget]
    exact ⟨by rw [h1]; omega, h2, h3, h4⟩

theorem researchSpec_sources_outcome (q : String) (mode : ResearchMode)
    (env : ResearchEnv) (per : List (List SearchResult))
    (hne : mergeResults mode.sources per ≠ []) :
    (researchSpec q mode env per).sources =
      assembleSources (mergeResults mode.sources per)
        ((mergeResults mode.sources per).map
          (fun r => env.fetchFn r.url mode.snippet_chars)) ∧
    ∃ s, (researchSpec q mode env per).outcome = .ok s := by
  have he2 : (mergeResults mode.sources per).isEmpty = false := by
    simpa [List.isEmpty_iff] using hne
  unfold researchSpec
  simp only [he2, Bool.false_eq_true, if_false]
  split <;> exact ⟨rfl, _, rfl⟩

/-- Claim C7: when a `research` invocation reaches the fetch step, the
assembled source list has exactly one 1-indexed entry per surviving
URL, in discovery order; every entry's text field is non-empty —
fetched (stripped) page text when non-empty, otherwise the search
result's snippet, otherwise a fixed non-empty placeholder; and a page
fetch that raises or fails never aborts the pipeline (the outcome is
still a normally returned string) or drops its source slot. -/
theorem research_source_assembly (q sq m : String) (ds dsc : Nat)
    (env : ResearchEnv) (qs : List String) (per : List (List SearchResult))
    (hd : _decompose sq = .ok qs)
    (hg : gatherExcept (qs.map (fun s => env.searchFn s (selectMode m ds dsc).sources))
      = .ok per)
    (hne : mergeResults (selectMode m ds dsc).sources per ≠ []) :
    (research q sq m ds dsc env).sources =
      assembleSources (mergeResults (selectMode m ds dsc).sources per)
        ((mergeResults (selectMode m ds dsc).sources per).map
          (fun r => env.fetchFn r.url (selectMode m ds dsc).snippet_chars)) ∧
    (∃ s, (research q sq m ds dsc env).outcome = .ok s) ∧
    (assembleSources (mergeResults (selectMode m ds dsc).sources per)
        ((mergeResults (selectMode m ds dsc).sources per).map
          (fun r => env.fetchFn r.url (selectMode m ds dsc).snippet_chars))).length
      = (mergeResults (selectMode m ds dsc).sources per).length ∧
    ∀ (j : Nat)
      (hj : j < (assembleSources (mergeResults (selectMode m ds dsc).sources per)
        ((mergeResults (selectMode m ds dsc).sources per).map
          (fun r => env.fetchFn r.url (selectMode m ds dsc).snippet_chars))).length)
      (hj2 : j < (mergeResults (selectMode m ds dsc).sources per).length),
      ((assembleSources (mergeResults (selectMode m ds dsc).sources per)
        ((mergeResults (selectMode m ds dsc).sources per).map
          (fun r => env.fetchFn r.url (selectMode m ds dsc).snippet_chars))).get
            ⟨j, hj⟩).index = j + 1 ∧
      ((assembleSources (mergeResults (selectMode m ds dsc).sources per)
        ((mergeResults (selectMode m ds dsc).sources per).map
          (fun r => env.fetchFn r.url (selectMode m ds dsc).snippet_chars))).get
            ⟨j, hj⟩).url
        = ((mergeResults (selectMode m ds dsc).sources per).get ⟨j, hj2⟩).url ∧
      ((assembleSources (mergeResults (selectMode m ds dsc).sources per)
        ((mergeResults (selectMode m ds dsc).sources per).map
          (fun r => env.fetchFn r.url (selectMode m ds dsc).snippet_chars))).get
            ⟨j, hj⟩).text ≠ "" ∧
      textFallback ((mergeResults (selectMode m ds dsc).sources per).get ⟨j, hj2⟩)
        (env.fetchFn ((mergeResults (selectMode m ds dsc).sources per).get ⟨j, hj2⟩).url
          (selectMode m ds dsc).snippet_chars)
        ((assembleSources (mergeResults (selectMode m ds dsc).sources per)
          ((mergeResults (selectMode m ds dsc).sources per).map
            (fun r => env.fetchFn r.url (selectMode m ds dsc).snippet_chars))).get
              ⟨j, hj⟩).text = true := by
  have hrs := research_eq_researchSpec q sq m ds dsc env qs per hd hg
  have hso := researchSpec_sources_outcome q (selectMode m ds dsc) env per hne
  have has := assembleSources_spec (mergeResults (selectMode m ds dsc).sources per)
    (fun r => env.fetchFn r.url (selectMode m ds dsc).snippet_chars)
  exact ⟨by rw [hrs]; exact hso.1, by rw [hrs]; exact hso.2, has.1, has.2⟩

/-- Witness for `research_source_assembly`: two surviving URLs, the
first fetch raising an exception and the second succeeding — both
slots are present, 1-indexed, with non-empty text. -/
theorem research_source_assembly_witness :
    (research "q" "q" "quick" 5 1200
      ⟨fun _ _ => .ok [⟨"https://w1/", "t1", "s1"⟩, ⟨"https://w2/", "t2", "s2"⟩],
       fun u _ => if u = "https://w1/" then .error () else .ok ⟨u, "T", "body"⟩,
       fun _ => .ok "ans"⟩).sources =
      assembleSources
        (mergeResults (selectMode "quick" 5 1200).sources
          [[⟨"https://w1/", "t1", "s1"⟩, ⟨"https://w2/", "t2", "s2"⟩]])
        ((mergeResults (selectMode "quick" 5 1200).sources
          [[⟨"https://w1/", "t1", "s1"⟩, ⟨"https://w2/", "t2", "s2"⟩]]).map
            (fun r =>
              (if r.url = "https://w1/" then Except.error ()
               else Except.ok (⟨r.url, "T", "body"⟩ : PageText)))) :=
  (research_source_assembly "q" "q" "quick" 5 1200
      ⟨fun _ _ => .ok [⟨"https://w1/", "t1", "s1"⟩, ⟨"https://w2/", "t2", "s2"⟩],
       fun u _ => if u = "https://w1/" then .error () else .ok ⟨u, "T", "body"⟩,
       fun _ => .ok "ans"⟩
      ["q"] [[⟨"https://w1/", "t1", "s1"⟩, ⟨"https://w2/", "t2", "s2"⟩]]
      (by decide) rfl (by decide)).1

end Research
